import Mathlib

/-!
Verification of the generative-computer repository's deterministic core:
the command classifier (smart simulator), the markdown renderer, and the
workspace file store's path-confinement contract.

Strings are embedded at the `List Char` level (Lean's `String` is a wrapper
around `List Char`), which keeps every definition executable and every
concrete evaluation kernel-reducible.  JavaScript string indices count
UTF-16 units while Lean counts code points; the two agree on all inputs
relevant here (the claims and counterexamples use BMP text).
-/

namespace GenComp

/-! ### Character-level helpers shared by the embedded functions -/

/-- JavaScript whitespace class `\s` restricted to the characters that occur
in this code base (space, tab, newline, carriage return, form feed,
vertical tab). -/
def isJsWs (c : Char) : Bool :=
  c == ' ' || c == '\t' || c == '\n' || c == '\r' ||
  c == Char.ofNat 11 || c == Char.ofNat 12

/-- The character matched by the JavaScript regex `.` without the `s` flag:
anything except a line terminator. -/
def isDotChar (c : Char) : Bool :=
  !(c == '\n' || c == '\r')

/-- The backtick character (written via its code point to keep source
hygiene). -/
def btick : Char := Char.ofNat 96

/-- Global single-character replacement, the embedding of
`str.replace(/c/g, rep)` for a one-character pattern. -/
def replaceChar (c : Char) (rep : List Char) : List Char → List Char
  | [] => []
  | x :: t => (if x = c then rep else [x]) ++ replaceChar c rep t

/-- JavaScript `String.prototype.trim` on the character list. -/
def jsTrimL (l : List Char) : List Char :=
  ((l.dropWhile isJsWs).reverse.dropWhile isJsWs).reverse

/-- JavaScript `String.prototype.trim`. -/
def jsTrim (s : String) : String := ⟨jsTrimL s.data⟩

/-- JavaScript `String.prototype.trimEnd` on the character list. -/
def jsTrimEndL (l : List Char) : List Char :=
  (l.reverse.dropWhile isJsWs).reverse

/-- Join segments with a separator character (the list analogue of
`Array.prototype.join` with a one-character separator). -/
def joinWith (sep : Char) : List (List Char) → List Char
  | [] => []
  | [s] => s
  | s :: s' :: t => s ++ sep :: joinWith sep (s' :: t)

/-- Split a character list at every occurrence of a separator character
(the list analogue of `String.prototype.split` with a one-character
separator).  `cur` holds the characters of the current segment in reverse. -/
def splitOnCharGo (sep : Char) (cur : List Char) : List Char → List (List Char)
  | [] => [cur.reverse]
  | c :: rest =>
      if c = sep then cur.reverse :: splitOnCharGo sep [] rest
      else splitOnCharGo sep (c :: cur) rest

/-- Split a character list on a separator character. -/
def splitOnChar (sep : Char) (l : List Char) : List (List Char) :=
  splitOnCharGo sep [] l

/-! ### Command classifier (`smart-simulator.js`)

`extractItems` first looks for matches of the regex `/"([^"]+)"/g`, then for
a match of `/:\s*(.+)/` whose capture contains a comma, and otherwise falls
back to the given defaults.  The regex engines are embedded as one-pass
scanners; a comment at each scanner argues its equivalence with the
leftmost-match-then-advance semantics of the JavaScript engine. -/

/-- Scanner for the global regex `/"([^"]+)"/g`.  State `none`: outside any
candidate match; state `some acc`: an opening quote has been consumed and
`acc` holds the (reversed) body so far.  When the body is empty and another
quote arrives, the regex engine fails at the opener and retries from the
second quote, which is exactly the `some []` self-transition.  An unclosed
opener at the end of input yields no match, and rescanning its quote-free
body can produce none either, so returning the collected matches is
faithful. -/
def quotedGo : Option (List Char) → List Char → List (List Char)
  | _, [] => []
  | none, c :: rest =>
      if c = '"' then quotedGo (some []) rest else quotedGo none rest
  | some acc, c :: rest =>
      if c = '"' then
        if acc = [] then quotedGo (some []) rest
        else ('"' :: acc.reverse ++ ['"']) :: quotedGo none rest
      else quotedGo (some (c :: acc)) rest

/-- All matches of `/"([^"]+)"/g` in a command, quotes included (as
`String.prototype.match` returns them). -/
def quotedMatches (command : String) : List (List Char) :=
  quotedGo none command.data

/-- Attempt of the regex `/:\s*(.+)/` at a position just after a colon.
`\s*` greedily consumes the whitespace run `w`; if a character follows it,
`(.+)` captures the maximal line-terminator-free run from there.  Otherwise
the engine backtracks inside `w`, and the longest viable retreat starts at
the last non-line-terminator whitespace character of `w`, capturing exactly
that character. -/
def colonMatch (rest : List Char) : Option (List Char) :=
  let w := rest.takeWhile isJsWs
  let after := rest.drop w.length
  match after with
  | _ :: _ => some (after.takeWhile isDotChar)
  | [] =>
      match (w.reverse.dropWhile (fun c => !isDotChar c)).head? with
      | some c => some [c]
      | none => none

/-- Scanner for the first match of `/:\s*(.+)/`: try the pattern at each
colon from the left; on failure the engine advances one character, which the
recursion on `rest` reproduces (a failing colon is followed only by
line-terminator whitespace, which contains no further colon). -/
def colonScan : List Char → Option (List Char)
  | [] => none
  | c :: rest =>
      if c = ':' then
        match colonMatch rest with
        | some cap => some cap
        | none => colonScan rest
      else colonScan rest

/-- Capture group of `command.match(/:\s*(.+)/)`, when the regex matches. -/
def colonCapture (command : String) : Option (List Char) :=
  colonScan command.data

/-- Embedding of `extractItems(command, defaults)` from
`smart-simulator.js` (identical in the `backend` and `runtime/backend`
copies): quoted items, else a comma-separated list after a colon, else the
defaults, each item prefixed with the cart emoji. -/
def extractItems (command : String) (defaults : List String) : List String :=
  let quoted := quotedMatches command
  if quoted.isEmpty then
    match colonCapture command with
    | some cap =>
        if cap.contains ',' then
          (splitOnChar ',' cap).map (fun item => "🛒 " ++ ⟨jsTrimL item⟩)
        else defaults.map (fun item => "🛒 " ++ item)
    | none => defaults.map (fun item => "🛒 " ++ item)
  else quoted.map (fun q => "🛒 " ++ ⟨replaceChar '"' [] q⟩)

/-- Substring test on character lists: does `needle` occur contiguously in
`hay`?  Scans every suffix, as `String.prototype.includes` does. -/
def listIncludes (hay needle : List Char) : Bool :=
  match hay with
  | [] => needle.isEmpty
  | _ :: t => List.isPrefixOf needle hay || listIncludes t needle

/-- JavaScript `haystack.includes(needle)` on strings. -/
def includes (haystack needle : String) : Bool :=
  listIncludes haystack.data needle.data

/-- JavaScript `String.prototype.toLowerCase` (ASCII-faithful). -/
def jsToLower (s : String) : String := ⟨s.data.map Char.toLower⟩

/-- JavaScript `command.substring(0, n)`. -/
def jsSubstringTo (s : String) (n : Nat) : String := ⟨s.data.take n⟩

/-- Output record of the classifier (`ContentProfile` in the spec): a
title, ordered suggested items, an optional literal content block, and a
tip line. -/
structure ContentProfile where
  title : String
  items : List String
  customContent : Option String := none
  tips : String
  deriving Repr, DecidableEq

/-- The ASCII art block returned by the ascii/art branch. -/
def asciiArt : String := "  /\\_/\\\\\n ( o.o )  🍎 ASCII Orchard Controller\n  > ^ <"

/-- Default grocery items passed to `extractItems` by the shopping branch. -/
def shoppingDefaults : List String :=
  ["carrots", "apples", "potatoes", "milk", "bread", "eggs"]

/-- The ascii/art branch profile (identical in both simulator copies). -/
def asciiShowcaseProfile : ContentProfile :=
  { title := "🎨 ASCII Art Showcase"
    items := []
    customContent := some asciiArt
    tips := "Ask for a new scene to regenerate fresh terminal art." }

/-- Shopping branch of `buildExperienceProfile`. -/
def shoppingCompanionProfile (command : String) : ContentProfile :=
  { title := "🛒 Shopping Companion"
    items := extractItems command shoppingDefaults
    tips := "Check your pantry before heading out to avoid buying duplicates!" }

/-- Shopping branch of `analyzeTodolist`. -/
def shoppingListProfile (command : String) : ContentProfile :=
  { title := "🛒 Shopping List"
    items := extractItems command shoppingDefaults
    tips := "Check your pantry before heading out to avoid buying duplicates!" }

/-- The seven blog-branch items (identical in both copies). -/
def blogItems : List String :=
  ["📋 Research topic and gather sources",
   "🎯 Define target audience and key message",
   "✏️ Write compelling headline and introduction",
   "📝 Draft main content sections",
   "🖼️ Add images, code examples, or diagrams",
   "🔍 Proofread and edit for clarity",
   "🚀 Publish and share on social media"]

/-- Blog branch of `buildExperienceProfile`. -/
def blogToolkitProfile : ContentProfile :=
  { title := "✍️ Blog Writing Toolkit"
    items := blogItems
    tips := "Start with an outline to keep your writing focused and structured." }

/-- Blog branch of `analyzeTodolist`. -/
def blogTodoProfile : ContentProfile :=
  { title := "✍️ Blog Writing Todo List"
    items := blogItems
    tips := "Start with an outline to keep your writing focused and structured." }

/-- The eight development-branch items (identical in both copies). -/
def devItems : List String :=
  ["📐 Design architecture and component structure",
   "🎨 Create UI mockups or wireframes",
   "⚙️ Set up development environment",
   "🔨 Implement core functionality",
   "✅ Write unit and integration tests",
   "🐛 Debug and fix issues",
   "📚 Document code and API",
   "🚀 Deploy to production"]

/-- Code/development branch of `buildExperienceProfile`. -/
def devSprintProfile : ContentProfile :=
  { title := "💻 Development Sprint Plan"
    items := devItems
    tips := "Break work into small, testable chunks for faster iteration." }

/-- Code/development branch of `analyzeTodolist`. -/
def devTodoProfile : ContentProfile :=
  { title := "💻 Development Todo List"
    items := devItems
    tips := "Break large features into small, testable chunks for faster iteration." }

/-- The eight travel-branch items (identical in both copies). -/
def travelItems : List String :=
  ["🎯 Choose destination and dates",
   "✈️ Book flights and accommodation",
   "📋 Create daily itinerary",
   "💳 Arrange travel insurance",
   "🎒 Pack essentials (clothes, documents, chargers)",
   "💱 Exchange currency or notify bank",
   "📸 Charge camera and devices",
   "🏠 Arrange pet/plant care if needed"]

/-- Travel branch of `buildExperienceProfile`. -/
def travelPlannerProfile : ContentProfile :=
  { title := "✈️ Travel Planner"
    items := travelItems
    tips := "Book accommodations and flights at least 2-3 months in advance for better deals." }

/-- Travel branch of `analyzeTodolist`. -/
def travelTodoProfile : ContentProfile :=
  { title := "✈️ Travel Planning Todo List"
    items := travelItems
    tips := "Book accommodations and flights at least 2-3 months in advance for better deals." }

/-- The eight social-media-branch items (identical in both copies). -/
def socialItems : List String :=
  ["💡 Draft engaging tweet copy (keep it under 280 chars)",
   "🖼️ Create eye-catching visual or screenshot",
   "🔗 Add relevant links or call-to-action",
   "🏷️ Include 2-3 relevant hashtags",
   "⏰ Schedule for optimal posting time",
   "👥 Tag relevant accounts or collaborators",
   "📊 Monitor engagement and reply to comments",
   "🔄 Retweet and amplify responses"]

/-- Twitter/social branch of `buildExperienceProfile`. -/
def socialLaunchProfile : ContentProfile :=
  { title := "🐦 Social Media Launch Checklist"
    items := socialItems
    tips := "Posts with images get 150% more engagement. Make it visual!" }

/-- Twitter/social branch of `analyzeTodolist`. -/
def twitterTodoProfile : ContentProfile :=
  { title := "🐦 Twitter Post Todo List"
    items := socialItems
    tips := "Posts with images get 150% more retweets. Make it visual!" }

/-- The truncated echo of the command used by the default-branch titles:
`command.substring(0, 50)` plus an ellipsis marker exactly when the command
is longer than 50 characters. -/
def truncatedEcho (command : String) : String :=
  jsSubstringTo command 50 ++ (if command.length > 50 then "..." else "")

/-- The seven default-branch items (identical in both copies). -/
def genericItems : List String :=
  ["🎯 Define clear goals and success criteria",
   "📋 Break down into smaller actionable steps",
   "⏰ Set realistic deadlines for each step",
   "🚀 Start with the highest priority item",
   "✅ Complete and verify each step",
   "📝 Document progress and learnings",
   "🎉 Celebrate completion!"]

/-- Default branch of `buildExperienceProfile`. -/
def projectBriefProfile (command : String) : ContentProfile :=
  { title := "📋 Project Brief: " ++ truncatedEcho command
    items := genericItems
    tips := "Focus on one task at a time for maximum productivity." }

/-- Default branch of `analyzeTodolist`. -/
def todoDefaultProfile (command : String) : ContentProfile :=
  { title := "📋 Todo List: " ++ truncatedEcho command
    items := genericItems
    tips := "Focus on one task at a time for maximum productivity." }

/-- Embedding of `buildExperienceProfile(command)` from
`runtime/backend/smart-simulator.js`: case-insensitive keyword tests in
source order, first hit wins, generic echo profile as the fallback. -/
def buildExperienceProfile (command : String) : ContentProfile :=
  let lower := jsToLower command
  if includes lower "ascii" || includes lower "art" then
    asciiShowcaseProfile
  else if includes lower "shop" || includes lower "groceries" ||
      includes lower "grocery" || includes lower "buy" ||
      includes lower "carrots" || includes lower "apples" then
    shoppingCompanionProfile command
  else if includes lower "blog" || includes lower "write" ||
      includes lower "article" then
    blogToolkitProfile
  else if includes lower "code" || includes lower "app" ||
      includes lower "build" || includes lower "implement" ||
      includes lower "develop" then
    devSprintProfile
  else if includes lower "travel" || includes lower "vacation" ||
      includes lower "trip" || includes lower "holiday" then
    travelPlannerProfile
  else if includes lower "twitter" || includes lower "tweet" ||
      includes lower "post" || includes lower "social media" then
    socialLaunchProfile
  else
    projectBriefProfile command

/-- Embedding of `analyzeTodolist(command)` from
`backend/smart-simulator.js`: the same branch conditions and item lists as
`buildExperienceProfile`, with the todo-list titles and tip variants of
that copy. -/
def analyzeTodolist (command : String) : ContentProfile :=
  let lower := jsToLower command
  if includes lower "ascii" || includes lower "art" then
    asciiShowcaseProfile
  else if includes lower "shop" || includes lower "groceries" ||
      includes lower "grocery" || includes lower "buy" ||
      includes lower "carrots" || includes lower "apples" then
    shoppingListProfile command
  else if includes lower "blog" || includes lower "write" ||
      includes lower "article" then
    blogTodoProfile
  else if includes lower "code" || includes lower "app" ||
      includes lower "build" || includes lower "implement" ||
      includes lower "develop" then
    devTodoProfile
  else if includes lower "travel" || includes lower "vacation" ||
      includes lower "trip" || includes lower "holiday" then
    travelTodoProfile
  else if includes lower "twitter" || includes lower "tweet" ||
      includes lower "post" || includes lower "social media" then
    twitterTodoProfile
  else
    todoDefaultProfile command

/-! ### Spec-side ordered keyword-group classifier

The following definitions follow the spec's words ("groups are tested in
the fixed order; the first group with any matching keyword wins") and are
compared with the nested conditionals of the source. -/

/-- Keyword group of the ascii-art branch. -/
def asciiKeywords : List String := ["ascii", "art"]

/-- Keyword group of the shopping branch. -/
def shoppingKeywords : List String :=
  ["shop", "groceries", "grocery", "buy", "carrots", "apples"]

/-- Keyword group of the blog branch. -/
def blogKeywords : List String := ["blog", "write", "article"]

/-- Keyword group of the code branch. -/
def codeKeywords : List String := ["code", "app", "build", "implement", "develop"]

/-- Keyword group of the travel branch. -/
def travelKeywords : List String := ["travel", "vacation", "trip", "holiday"]

/-- Keyword group of the twitter branch. -/
def twitterKeywords : List String := ["twitter", "tweet", "post", "social media"]

/-- Does the lowercased command contain any keyword of the group? -/
def matchesGroup (command : String) (g : List String) : Bool :=
  g.any (fun kw => includes (jsToLower command) kw)

/-- The keyword groups in the spec's fixed testing order. -/
def orderedGroups : List (List String) :=
  [asciiKeywords, shoppingKeywords, blogKeywords, codeKeywords,
   travelKeywords, twitterKeywords]

/-- Index of the first group with a matching keyword, if any. -/
def firstMatchingGroupAux (command : String) (i : Nat) : List (List String) → Option Nat
  | [] => none
  | g :: t =>
      if matchesGroup command g then some i
      else firstMatchingGroupAux command (i + 1) t

/-- Index (in `orderedGroups`) of the first matching keyword group. -/
def firstMatchingGroup (command : String) : Option Nat :=
  firstMatchingGroupAux command 0 orderedGroups

/-- The experience profile the spec's first-match table assigns to a group
index (`none` is the generic fallback). -/
def experienceForGroup (command : String) : Option Nat → ContentProfile
  | some 0 => asciiShowcaseProfile
  | some 1 => shoppingCompanionProfile command
  | some 2 => blogToolkitProfile
  | some 3 => devSprintProfile
  | some 4 => travelPlannerProfile
  | some 5 => socialLaunchProfile
  | _ => projectBriefProfile command

/-- The todo profile the spec's first-match table assigns to a group
index. -/
def todoForGroup (command : String) : Option Nat → ContentProfile
  | some 0 => asciiShowcaseProfile
  | some 1 => shoppingListProfile command
  | some 2 => blogTodoProfile
  | some 3 => devTodoProfile
  | some 4 => travelTodoProfile
  | some 5 => twitterTodoProfile
  | _ => todoDefaultProfile command

/-! ### Markdown renderer (`MarkdownEditor.tsx` / `MarkdownViewer.tsx`)

`escapeHtml` performs five sequential global single-character replacements;
`renderInlineMarkdown` then applies the bold, italic, code and link pattern
replacements in the source's fixed order.  Each regex replacement is
embedded as a one-pass state machine; the comments argue equivalence with
the leftmost-match-then-advance behaviour of the JavaScript engine. -/

/-- Embedding of `escapeHtml` (frontend variant): replace `&`, `<`, `>`,
`"`, `'` in that order. -/
def escapeHtmlL (l : List Char) : List Char :=
  replaceChar '\'' "&#39;".data
    (replaceChar '"' "&quot;".data
      (replaceChar '>' "&gt;".data
        (replaceChar '<' "&lt;".data
          (replaceChar '&' "&amp;".data l))))

/-- String-level `escapeHtml`. -/
def escapeHtml (s : String) : String := ⟨escapeHtmlL s.data⟩

/-- Scanner states for the two-delimiter patterns
`/\*\*([^*]+)\*\*/g` and `/__([^_]+)__/g`. -/
inductive DblState where
  | out
  | seen1
  | body (acc : List Char)
  | closing (acc : List Char)

/-- One-pass replacement for `/dd([^d]+)dd/g` (with `d` the delimiter and
`pre`/`post` the replacement wrapping).  Failure cases mirror the regex
engine's advance-by-one: a third delimiter right after an opener re-opens at
the next position; a lone closing delimiter or end of input emits the
consumed characters verbatim, and no match can start inside them because
the body contains no delimiter and each inner retry hits the same failing
character. -/
def subDoubleGo (d : Char) (pre post : List Char) : DblState → List Char → List Char
  | .out, [] => []
  | .out, c :: r => if c = d then subDoubleGo d pre post .seen1 r else c :: subDoubleGo d pre post .out r
  | .seen1, [] => [d]
  | .seen1, c :: r =>
      if c = d then subDoubleGo d pre post (.body []) r
      else d :: c :: subDoubleGo d pre post .out r
  | .body acc, [] => d :: d :: acc.reverse
  | .body acc, c :: r =>
      if c = d then
        if acc = [] then d :: subDoubleGo d pre post (.body []) r
        else subDoubleGo d pre post (.closing acc) r
      else subDoubleGo d pre post (.body (c :: acc)) r
  | .closing acc, [] => d :: d :: acc.reverse ++ [d]
  | .closing acc, c :: r =>
      if c = d then pre ++ acc.reverse ++ post ++ subDoubleGo d pre post .out r
      else d :: d :: acc.reverse ++ d :: c :: subDoubleGo d pre post .out r

/-- Global replacement for a double-delimiter emphasis pattern. -/
def subDouble (d : Char) (pre post : List Char) (l : List Char) : List Char :=
  subDoubleGo d pre post .out l

/-- One-pass replacement for `/d([^d]+)d/g` (single-delimiter emphasis and
inline code).  State `some acc` holds the reversed body after an opener;
two adjacent delimiters re-open at the second one, and an unclosed opener
at end of input is emitted verbatim (its delimiter-free body admits no
match on rescan). -/
def subSingleGo (d : Char) (pre post : List Char) : Option (List Char) → List Char → List Char
  | none, [] => []
  | none, c :: r => if c = d then subSingleGo d pre post (some []) r else c :: subSingleGo d pre post none r
  | some acc, [] => d :: acc.reverse
  | some acc, c :: r =>
      if c = d then
        if acc = [] then d :: subSingleGo d pre post (some []) r
        else pre ++ acc.reverse ++ post ++ subSingleGo d pre post none r
      else subSingleGo d pre post (some (c :: acc)) r

/-- Global replacement for a single-delimiter pattern. -/
def subSingle (d : Char) (pre post : List Char) (l : List Char) : List Char :=
  subSingleGo d pre post none l

/-- Scanner states for the link pattern `/\[([^\]]+)\]\(([^)]+)\)/g`:
accumulating the label, expecting the parenthesis, accumulating the URL. -/
inductive LinkState where
  | out
  | lab (acc : List Char)
  | par (acc : List Char)
  | url (acc uacc : List Char)

/-- The anchor produced for one link match (`$1` label, `$2` URL). -/
def linkAnchor (lab url : List Char) : List Char :=
  "<a href=\"".data ++ url ++ "\" target=\"_blank\" rel=\"noreferrer noopener\">".data ++
    lab ++ "</a>".data

/-- One-pass replacement for the markdown link pattern.  On a failure the
consumed characters are emitted verbatim: every retry at an inner `[`
reaches the same `]`/`(`/`)` position that made the outer attempt fail, so
no match can start inside the consumed span; the failing character itself
is reprocessed (it may be a fresh `[`). -/
def subLinkGo : LinkState → List Char → List Char
  | .out, [] => []
  | .out, c :: r => if c = '[' then subLinkGo (.lab []) r else c :: subLinkGo .out r
  | .lab acc, [] => '[' :: acc.reverse
  | .lab acc, c :: r =>
      if c = ']' then
        if acc = [] then '[' :: ']' :: subLinkGo .out r
        else subLinkGo (.par acc) r
      else subLinkGo (.lab (c :: acc)) r
  | .par acc, [] => '[' :: acc.reverse ++ [']']
  | .par acc, c :: r =>
      if c = '(' then subLinkGo (.url acc []) r
      else if c = '[' then '[' :: acc.reverse ++ ']' :: subLinkGo (.lab []) r
      else '[' :: acc.reverse ++ ']' :: c :: subLinkGo .out r
  | .url acc u, [] => '[' :: acc.reverse ++ ']' :: '(' :: u.reverse
  | .url acc u, c :: r =>
      if c = ')' then
        if u = [] then '[' :: acc.reverse ++ ']' :: '(' :: ')' :: subLinkGo .out r
        else linkAnchor acc.reverse u.reverse ++ subLinkGo .out r
      else subLinkGo (.url acc (c :: u)) r

/-- Global replacement for the link pattern. -/
def subLink (l : List Char) : List Char := subLinkGo .out l

/-- Embedding of `renderInlineMarkdown(content)`: escape, then bold (`**`,
`__`), italic (`*`, `_`), inline code, links — in that order. -/
def renderInlineL (l : List Char) : List Char :=
  subLink
    (subSingle btick "<code>".data "</code>".data
      (subSingle '_' "<em>".data "</em>".data
        (subSingle '*' "<em>".data "</em>".data
          (subDouble '_' "<strong>".data "</strong>".data
            (subDouble '*' "<strong>".data "</strong>".data
              (escapeHtmlL l))))))

/-- String-level `renderInlineMarkdown`. -/
def renderInlineMarkdown (content : String) : String := ⟨renderInlineL content.data⟩

/-! ### Block-level renderer `renderMarkdown` -/

/-- Mutable loop state of `renderMarkdown`: accumulated output segments and
the two block flags. -/
structure RenderSt where
  html : List (List Char)
  inList : Bool
  inCode : Bool

/-- The `closeList` helper: emit `</ul>` if a list is open. -/
def closeListS (st : RenderSt) : RenderSt :=
  if st.inList then { st with html := st.html ++ ["</ul>".data], inList := false }
  else st

/-- Leading `#` run of a line. -/
def headingHashes (l : List Char) : List Char := l.takeWhile (· == '#')

/-- Test of `/^#{1,6}\s+/`: one to six hashes followed by whitespace. -/
def isHeadingLine (l : List Char) : Bool :=
  let hs := headingHashes l
  (decide (1 ≤ hs.length) && decide (hs.length ≤ 6)) &&
    (match l.drop hs.length with
     | c :: _ => isJsWs c
     | [] => false)

/-- Heading level: hash-run length clamped to 6. -/
def headingLevel (l : List Char) : Nat := min (headingHashes l).length 6

/-- `line.replace(/^#{1,6}\s+/, '')` for a line passing `isHeadingLine`. -/
def headingText (l : List Char) : List Char :=
  (l.drop (headingHashes l).length).dropWhile isJsWs

/-- Test of `/^[-*]\s+/`. -/
def isBulletLine (l : List Char) : Bool :=
  match l with
  | c :: c2 :: _ => (c == '-' || c == '*') && isJsWs c2
  | _ => false

/-- `line.replace(/^[-*]\s+/, '')` for a line passing `isBulletLine`. -/
def bulletText (l : List Char) : List Char :=
  (l.drop 1).dropWhile isJsWs

/-- Digit character for a heading level 1–6. -/
def levelDigit (n : Nat) : Char := Char.ofNat (48 + n)

/-- One iteration of the `renderMarkdown` line loop. -/
def renderLine (st : RenderSt) (raw : List Char) : RenderSt :=
  let line := jsTrimEndL raw
  if List.isPrefixOf "```".data line then
    if st.inCode then
      { st with html := st.html ++ ["</pre>".data], inCode := false }
    else
      let st1 := closeListS st
      { st1 with html := st1.html ++ ["<pre class=\"markdown-editor__code\">".data], inCode := true }
  else if st.inCode then
    { st with html := st.html ++ [escapeHtmlL raw] }
  else if line.isEmpty then
    let st1 := closeListS st
    { st1 with html := st1.html ++ [[]] }
  else if isHeadingLine line then
    let st1 := closeListS st
    let lv := headingLevel line
    { st1 with html := st1.html ++
        [('<' :: 'h' :: levelDigit lv :: '>' :: renderInlineL (headingText line)) ++
          ('<' :: '/' :: 'h' :: levelDigit lv :: '>' :: [])] }
  else if isBulletLine line then
    let st1 :=
      if st.inList then st
      else { st with inList := true, html := st.html ++ ["<ul>".data] }
    { st1 with html := st1.html ++
        ["<li>".data ++ renderInlineL (bulletText line) ++ "</li>".data] }
  else
    let st1 := closeListS st
    { st1 with html := st1.html ++
        ["<p>".data ++ renderInlineL line ++ "</p>".data] }

/-- Split on `/\r?\n/`: split at every newline, dropping one carriage
return directly before it.  `cur` holds the current segment reversed. -/
def splitLinesGo (cur : List Char) : List Char → List (List Char)
  | [] => [cur.reverse]
  | c :: rest =>
      if c = '\n' then
        (if cur.head? == some '\r' then cur.tail.reverse else cur.reverse) ::
          splitLinesGo [] rest
      else splitLinesGo (c :: cur) rest

/-- The final filter of `renderMarkdown`: drop a segment that is empty and
whose predecessor in the original array is also empty. -/
def dedupEmptyGo (prev : Option (List Char)) : List (List Char) → List (List Char)
  | [] => []
  | x :: xs =>
      if x.isEmpty && (match prev with | some p => p.isEmpty | none => false) then
        dedupEmptyGo (some x) xs
      else x :: dedupEmptyGo (some x) xs

/-- Embedding of `renderMarkdown(markdown)` on character lists. -/
def renderMarkdownL (md : List Char) : List Char :=
  let lines := splitLinesGo [] md
  let stEnd := closeListS (lines.foldl renderLine ⟨[], false, false⟩)
  let html := stEnd.html ++ (if stEnd.inCode then ["</pre>".data] else [])
  joinWith '\n' (dedupEmptyGo none html)

/-- String-level `renderMarkdown`. -/
def renderMarkdown (s : String) : String := ⟨renderMarkdownL s.data⟩

/-! ### Workspace file store (`server.js`)

POSIX path resolution (`path.resolve`) is embedded on segment lists, the
filesystem as an association list from absolute path to content, and each
HTTP handler as a function that also returns the list and order of
filesystem operations it performs, so that the confinement contract ("no
filesystem operation on an unvalidated path") is statable. -/

/-- One step of POSIX path normalization: skip empty and `.` segments, pop
on `..`, append anything else. -/
def normStep (acc : List (List Char)) (seg : List Char) : List (List Char) :=
  if seg = [] ∨ seg = ['.'] then acc
  else if seg = ['.', '.'] then acc.dropLast
  else acc ++ [seg]

/-- Normalize a segment list (left to right, `..` above the root stays at
the root, as in `path.resolve`). -/
def normSegs (segs : List (List Char)) : List (List Char) :=
  segs.foldl normStep []

/-- Embedding of `path.resolve(root, rel)` for an absolute, normalized
`root`: an absolute `rel` wins, otherwise the two are joined; the result is
the normalized absolute path. -/
def resolveChars (root rel : List Char) : List Char :=
  let full := if rel.head? == some '/' then rel else root ++ '/' :: rel
  '/' :: joinWith '/' (normSegs (splitOnChar '/' full))

/-- String-level `path.resolve(root, rel)`. -/
def resolvePosix (root rel : String) : String := ⟨resolveChars root.data rel.data⟩

/-- The workspace root `join(__dirname, '..', 'my-computer')`.  The actual
directory depends on where the repository is installed; the embedding fixes
a representative absolute path, on which none of the verified properties
depend. -/
def WORKSPACE_DIR : String := "/app/my-computer"

/-- Embedding of `resolveWorkspacePath(relativePath)`: resolve against the
root and reject unless the result is the root itself or extends the root
followed by the path separator. -/
def resolveWorkspacePath (rel : String) : Except String String :=
  let rootL := WORKSPACE_DIR.data
  let normalizedRoot := if rootL.getLast? == some '/' then rootL else rootL ++ ['/']
  let safePath := resolveChars rootL rel.data
  if !(safePath == rootL) && !(List.isPrefixOf normalizedRoot safePath) then
    Except.error "Invalid workspace path"
  else
    Except.ok ⟨safePath⟩

/-- Decidable equality for `Except String String` results, so that concrete
validation outcomes can be checked by `decide`. -/
instance : DecidableEq (Except String String) := fun
  | Except.error a, Except.error b =>
      match decEq a b with
      | isTrue h => isTrue (by rw [h])
      | isFalse h => isFalse (fun hh => h (by injection hh))
  | Except.error _, Except.ok _ => isFalse (fun hh => by injection hh)
  | Except.ok _, Except.error _ => isFalse (fun hh => by injection hh)
  | Except.ok a, Except.ok b =>
      match decEq a b with
      | isTrue h => isTrue (by rw [h])
      | isFalse h => isFalse (fun hh => h (by injection hh))

/-- A filesystem operation performed by a handler, tagged with the absolute
path it touches. -/
inductive FsOp where
  | mkdirp (path : String)
  | access (path : String)
  | readFile (path : String)
  | writeFile (path : String)
  | statFile (path : String)
  deriving Repr, DecidableEq

/-- The path an operation touches. -/
def FsOp.path : FsOp → String
  | .mkdirp p => p
  | .access p => p
  | .readFile p => p
  | .writeFile p => p
  | .statFile p => p

/-- The flat-file state: newest binding first. -/
abbrev Fs := List (String × String)

/-- Read a file (Node `readFile`, `ENOENT` as `none`). -/
def fsGet (fs : Fs) (p : String) : Option String := List.lookup p fs

/-- Write a file, creating or overwriting. -/
def fsSet (fs : Fs) (p c : String) : Fs := (p, c) :: fs

/-- The welcome file path `resolve(WORKSPACE_DIR, 'welcome.md')`. -/
def WELCOME_PATH : String := resolvePosix WORKSPACE_DIR "welcome.md"

/-- The default welcome note written by `ensureWorkspaceDefaults`. -/
def DEFAULT_WELCOME_MARKDOWN : String :=
  "# Welcome to the Generative Computer!\n\nYou and your agent now share this desktop workspace. Files you create here live under **My Computer** and stay editable by both of you.\n\n## Getting Started\n\n- Type a command below to ask the agent for help\n- Open files from **My Computer** to edit them in place\n- Ask the agent to create new notes, plans, or React components\n\n## Tips\n\n- Close and reopen files from **My Computer** whenever you need a clean view\n- Every file shows its real name so you can reference it in future requests\n- Markdown documents render live previews as you edit\n"

/-- Embedding of `ensureWorkspaceDefaults()`: make the workspace directory,
probe the welcome note, create it when absent.  Returns the new state and
the syscall trace. -/
def ensureWorkspaceDefaults (fs : Fs) : Fs × List FsOp :=
  match fsGet fs WELCOME_PATH with
  | some _ => (fs, [.mkdirp WORKSPACE_DIR, .access WELCOME_PATH])
  | none =>
      (fsSet fs WELCOME_PATH DEFAULT_WELCOME_MARKDOWN,
       [.mkdirp WORKSPACE_DIR, .access WELCOME_PATH, .writeFile WELCOME_PATH])

/-- JSON response of a file endpoint (status code, success flag, optional
content, optional error message). -/
structure ApiResponse where
  status : Nat
  success : Bool
  content : Option String := none
  error : Option String := none
  deriving Repr, DecidableEq

/-- Result of running a handler: the response, the filesystem afterwards,
and the syscalls performed in order. -/
structure StoreResult where
  resp : ApiResponse
  fs : Fs
  trace : List FsOp
  deriving Repr, DecidableEq

/-- POSIX `dirname` of an absolute path. -/
def dirnameStr (p : String) : String :=
  ⟨'/' :: joinWith '/' ((splitOnChar '/' (p.data.drop 1)).dropLast)⟩

/-- Embedding of `GET /api/files/content`: trim, reject a missing path with
400, ensure the workspace defaults, validate, read; `ENOENT` becomes 404
and any other thrown error (including `Invalid workspace path`) becomes
500. -/
def getFileContent (fs : Fs) (rawPath : String) : StoreResult :=
  let relativePath := jsTrim rawPath
  if relativePath == "" then
    ⟨⟨400, false, none, some "Missing file path"⟩, fs, []⟩
  else
    let ed := ensureWorkspaceDefaults fs
    match resolveWorkspacePath relativePath with
    | .error e => ⟨⟨500, false, none, some e⟩, ed.1, ed.2⟩
    | .ok p =>
        match fsGet ed.1 p with
        | none =>
            ⟨⟨404, false, none, some ("File not found: " ++ relativePath)⟩,
             ed.1, ed.2 ++ [.readFile p]⟩
        | some content =>
            ⟨⟨200, true, some content, none⟩, ed.1, ed.2 ++ [.readFile p]⟩

/-- Does directory `p` lie strictly above `q` (is `p` with a trailing
separator a prefix of `q`)? -/
def isAncestorOf (p q : String) : Bool :=
  List.isPrefixOf (p.data ++ ['/']) q.data

/-- Directory test derived from the flat file map.  On every state
reachable through the API the directories on disk are exactly the
workspace root (created by `ensureWorkspaceDefaults`), its ambient
ancestors (present before the server starts; no validated path can reach
them), and the ancestors of existing files (created by the recursive
`mkdir` that preceded each successful write) — a parent directory created
by `mkdir` whose write then failed is either already implied by an
existing file or was already present, so deriving directories from the
file map is observationally exact.  Ambient ancestors of the root never
collide with validated paths and need no representation. -/
def isDirIn (fs : Fs) (p : String) : Bool :=
  p == WORKSPACE_DIR || fs.any (fun e => isAncestorOf p e.1)

/-- Failure condition of `fs.mkdir(d, { recursive: true })`: some existing
file occupies `d` itself or a strict ancestor of `d` (Node throws
`EEXIST`/`ENOTDIR`; the handler's catch turns it into a 500). -/
def mkdirBlocked (fs : Fs) (d : String) : Bool :=
  fs.any (fun e => e.1 == d || isAncestorOf e.1 d)

/-- Embedding of `PUT /api/files/content`: trim, reject a missing path with
400, ensure the workspace defaults, validate, create parent directories,
write, stat.  A validation failure becomes 500; so does a thrown
filesystem error: `mkdir` fails when a file blocks the directory path, and
`fs.writeFile` fails with `EISDIR` when the resolved path is itself a
directory (for example the candidate `.`, which resolves to the accepted
workspace root) — in both cases nothing is stored.  The exact Node error
messages are abstracted. -/
def putFileContent (fs : Fs) (rawPath content : String) : StoreResult :=
  let relativePath := jsTrim rawPath
  if relativePath == "" then
    ⟨⟨400, false, none, some "Missing file path"⟩, fs, []⟩
  else
    let ed := ensureWorkspaceDefaults fs
    match resolveWorkspacePath relativePath with
    | .error e => ⟨⟨500, false, none, some e⟩, ed.1, ed.2⟩
    | .ok p =>
        if mkdirBlocked ed.1 (dirnameStr p) then
          ⟨⟨500, false, none, some "ENOTDIR: not a directory"⟩, ed.1,
           ed.2 ++ [.mkdirp (dirnameStr p)]⟩
        else if isDirIn ed.1 p then
          ⟨⟨500, false, none, some "EISDIR: illegal operation on a directory"⟩,
           ed.1, ed.2 ++ [.mkdirp (dirnameStr p), .writeFile p]⟩
        else
          ⟨⟨200, true, none, none⟩, fsSet ed.1 p content,
           ed.2 ++ [.mkdirp (dirnameStr p), .writeFile p, .statFile p]⟩


/-- A normalized segment: nonempty and separator-free. -/
def GoodSeg (s : List Char) : Prop := s ≠ [] ∧ '/' ∉ s

/-- Acceptance predicate following the spec's words: the resolved absolute
path is exactly the root, or the root with a trailing separator is a
strict prefix of it. -/
def specAccepts (rel : String) : Bool :=
  let res := resolveChars WORKSPACE_DIR.data rel.data
  res == WORKSPACE_DIR.data ||
    (List.isPrefixOf (WORKSPACE_DIR.data ++ ['/']) res &&
      !(res == WORKSPACE_DIR.data ++ ['/']))

/-- Number of positions at which `needle` occurs in `hay` (used to state
element counts of rendered HTML). -/
def countSub (hay needle : List Char) : Nat :=
  match hay with
  | [] => 0
  | _ :: t => (if List.isPrefixOf needle hay then 1 else 0) + countSub t needle

/-! ### Lemmas about path normalization

The confinement proof needs one structural fact: a resolved path never ends
with the separator unless it is the bare root `/`, so the code's non-strict
`startsWith` test agrees with the spec's strict-prefix reading. -/

/-- Membership in `dropLast` implies membership in the list. -/
theorem memOfMemDropLast {α : Type} : ∀ {l : List α} {x : α}, x ∈ l.dropLast → x ∈ l
  | [], _, h => by simp at h
  | [_], _, h => by simp at h
  | a :: b :: t, x, h => by
      rw [List.dropLast_cons₂] at h
      rcases List.mem_cons.mp h with h | h
      · exact h ▸ List.mem_cons_self _ _
      · exact List.mem_cons_of_mem _ (memOfMemDropLast h)

/-- Segments produced by splitting on a separator do not contain it. -/
theorem splitOnCharGo_no_sep (sep : Char) :
    ∀ (l cur : List Char), sep ∉ cur → ∀ s ∈ splitOnCharGo sep cur l, sep ∉ s
  | [], cur, hcur, s, hs => by
      simp only [splitOnCharGo, List.mem_singleton] at hs
      subst hs
      exact fun hm => hcur (List.mem_reverse.mp hm)
  | c :: rest, cur, hcur, s, hs => by
      simp only [splitOnCharGo] at hs
      by_cases hc : c = sep
      · rw [if_pos hc] at hs
        rcases List.mem_cons.mp hs with h | h
        · subst h
          exact fun hm => hcur (List.mem_reverse.mp hm)
        · exact splitOnCharGo_no_sep sep rest [] (by simp) s h
      · rw [if_neg hc] at hs
        refine splitOnCharGo_no_sep sep rest (c :: cur) ?_ s hs
        intro hm
        rcases List.mem_cons.mp hm with h | h
        · exact hc h.symm
        · exact hcur h

/-- `normStep` folding preserves goodness of all accumulated segments,
given separator-free input segments. -/
theorem foldl_normStep_good :
    ∀ (l acc : List (List Char)), (∀ s ∈ acc, GoodSeg s) → (∀ s ∈ l, '/' ∉ s) →
      ∀ s ∈ List.foldl normStep acc l, GoodSeg s
  | [], _, hacc, _, s, hs => hacc s hs
  | seg :: t, acc, hacc, hl, s, hs => by
      rw [List.foldl_cons] at hs
      refine foldl_normStep_good t (normStep acc seg) ?_
        (fun x hx => hl x (List.mem_cons_of_mem _ hx)) s hs
      intro x hx
      by_cases h1 : seg = [] ∨ seg = ['.']
      · rw [normStep, if_pos h1] at hx
        exact hacc x hx
      · by_cases h2 : seg = ['.', '.']
        · rw [normStep, if_neg h1, if_pos h2] at hx
          exact hacc x (memOfMemDropLast hx)
        · rw [normStep, if_neg h1, if_neg h2] at hx
          rcases List.mem_append.mp hx with h | h
          · exact hacc x h
          · have hxs : x = seg := by simpa using h
            subst hxs
            exact ⟨fun hn => h1 (Or.inl hn), hl x (List.mem_cons_self _ _)⟩

/-- All segments of a normalized split are good. -/
theorem normSegs_good (l : List Char) :
    ∀ s ∈ normSegs (splitOnChar '/' l), GoodSeg s := by
  unfold normSegs splitOnChar
  exact foldl_normStep_good _ []
    (by simp)
    (fun s hs => splitOnCharGo_no_sep '/' l [] (by simp) s hs)

/-- The join of nonempty segments is nonempty. -/
theorem joinWith_ne_nil (sep : Char) :
    ∀ {segs : List (List Char)}, segs ≠ [] → (∀ s ∈ segs, s ≠ []) →
      joinWith sep segs ≠ []
  | [], h, _ => absurd rfl h
  | [s], _, hg => by simpa [joinWith] using hg s (by simp)
  | _ :: _ :: _, _, _ => by
      simp only [joinWith]
      intro he
      exact List.cons_ne_nil _ _ (List.append_eq_nil.mp he).2

/-- The last element of `some`-valued `getLast?` is a member. -/
theorem memOfGetLastSome {l : List Char} {c : Char} (h : l.getLast? = some c) :
    c ∈ l := by
  obtain ⟨hne, he⟩ := List.mem_getLast?_eq_getLast (Option.mem_def.mpr h)
  exact he ▸ List.getLast_mem hne

/-- The last character of a join of good segments is not the separator. -/
theorem joinWith_getLast_ne (sep : Char) :
    ∀ {segs : List (List Char)}, (∀ s ∈ segs, s ≠ [] ∧ sep ∉ s) →
      ∀ {c : Char}, (joinWith sep segs).getLast? = some c → c ≠ sep
  | [], _, c, h => by simp [joinWith] at h
  | [s], hg, c, h => by
      have hs := hg s (by simp)
      have hc : c ∈ s := memOfGetLastSome (by simpa [joinWith] using h)
      intro he
      exact hs.2 (he ▸ hc)
  | s :: s' :: t, hg, c, h => by
      have hsub : ∀ x ∈ s' :: t, x ≠ [] ∧ sep ∉ x :=
        fun x hx => hg x (List.mem_cons_of_mem _ hx)
      have hne : joinWith sep (s' :: t) ≠ [] :=
        joinWith_ne_nil sep (by simp) (fun x hx => (hsub x hx).1)
      rw [joinWith, List.getLast?_append_of_ne_nil _ (by simp)] at h
      have hsplit : sep :: joinWith sep (s' :: t) = [sep] ++ joinWith sep (s' :: t) := rfl
      rw [hsplit, List.getLast?_append_of_ne_nil _ hne] at h
      exact joinWith_getLast_ne sep hsub h

/-- A resolved path is either the bare root `/` or does not end in the
separator. -/
theorem resolveChars_shape (root rel : List Char) :
    resolveChars root rel = ['/'] ∨
      ∀ c, (resolveChars root rel).getLast? = some c → c ≠ '/' := by
  have hres : resolveChars root rel =
      '/' :: joinWith '/' (normSegs (splitOnChar '/'
        (if rel.head? == some '/' then rel else root ++ '/' :: rel))) := rfl
  have hgood := normSegs_good (if rel.head? == some '/' then rel else root ++ '/' :: rel)
  revert hres hgood
  generalize normSegs (splitOnChar '/'
      (if rel.head? == some '/' then rel else root ++ '/' :: rel)) = segs
  intro hres hgood
  cases segs with
  | nil =>
      left
      rw [hres]
      rfl
  | cons s t =>
      right
      intro c hc
      rw [hres] at hc
      have hne : joinWith '/' (s :: t) ≠ [] :=
        joinWith_ne_nil '/' (by simp) (fun x hx => (hgood x hx).1)
      have hsplit : '/' :: joinWith '/' (s :: t) = ['/'] ++ joinWith '/' (s :: t) := rfl
      rw [hsplit, List.getLast?_append_of_ne_nil _ hne] at hc
      exact joinWith_getLast_ne '/' hgood hc

/-- A resolved workspace path never equals the root with a trailing
separator appended, so the code's non-strict prefix test is equivalent to
the spec's strict-prefix condition. -/
theorem resolveChars_ne_rootSlash (rel : List Char) :
    resolveChars WORKSPACE_DIR.data rel ≠ WORKSPACE_DIR.data ++ ['/'] := by
  rcases resolveChars_shape WORKSPACE_DIR.data rel with h | h
  · rw [h]
    decide
  · intro he
    have hlast : (resolveChars WORKSPACE_DIR.data rel).getLast? = some '/' := by
      rw [he]
      decide
    exact h '/' hlast rfl

/-- Every operation traced by `ensureWorkspaceDefaults` touches only the
workspace root or the welcome note. -/
theorem ensure_trace_paths (fs : Fs) :
    ∀ op ∈ (ensureWorkspaceDefaults fs).2,
      op.path = WORKSPACE_DIR ∨ op.path = WELCOME_PATH := by
  intro op hop
  unfold ensureWorkspaceDefaults at hop
  cases h : fsGet fs WELCOME_PATH <;> rw [h] at hop <;> simp at hop
  · rcases hop with h1 | h1 | h1 <;> simp [h1, FsOp.path]
  · rcases hop with h1 | h1 <;> simp [h1, FsOp.path]

/-! ### Handler reduction lemmas -/

/-- Reading with a blank path returns 400 without touching the disk. -/
theorem getFileContent_missing (fs : Fs) (raw : String)
    (hz : (jsTrim raw == "") = true) :
    getFileContent fs raw = ⟨⟨400, false, none, some "Missing file path"⟩, fs, []⟩ := by
  simp only [getFileContent, hz, if_true]

/-- Writing with a blank path returns 400 without touching the disk. -/
theorem putFileContent_missing (fs : Fs) (raw content : String)
    (hz : (jsTrim raw == "") = true) :
    putFileContent fs raw content =
      ⟨⟨400, false, none, some "Missing file path"⟩, fs, []⟩ := by
  simp only [putFileContent, hz, if_true]

/-- Reading a rejected path performs only the workspace-defaults syscalls
and surfaces the validation error with status 500. -/
theorem getFileContent_invalid (fs : Fs) (raw : String)
    (hz : (jsTrim raw == "") = false)
    (he : resolveWorkspacePath (jsTrim raw) = Except.error "Invalid workspace path") :
    getFileContent fs raw =
      ⟨⟨500, false, none, some "Invalid workspace path"⟩,
       (ensureWorkspaceDefaults fs).1, (ensureWorkspaceDefaults fs).2⟩ := by
  simp only [getFileContent, hz, he, Bool.false_eq_true, if_false]

/-- Writing to a rejected path performs only the workspace-defaults
syscalls and surfaces the validation error with status 500. -/
theorem putFileContent_invalid (fs : Fs) (raw content : String)
    (hz : (jsTrim raw == "") = false)
    (he : resolveWorkspacePath (jsTrim raw) = Except.error "Invalid workspace path") :
    putFileContent fs raw content =
      ⟨⟨500, false, none, some "Invalid workspace path"⟩,
       (ensureWorkspaceDefaults fs).1, (ensureWorkspaceDefaults fs).2⟩ := by
  simp only [putFileContent, hz, he, Bool.false_eq_true, if_false]

/-- Reading an accepted, present path returns its content with 200. -/
theorem getFileContent_found (fs : Fs) (raw p c : String)
    (hz : (jsTrim raw == "") = false)
    (hp : resolveWorkspacePath (jsTrim raw) = Except.ok p)
    (hg : fsGet (ensureWorkspaceDefaults fs).1 p = some c) :
    getFileContent fs raw =
      ⟨⟨200, true, some c, none⟩,
       (ensureWorkspaceDefaults fs).1,
       (ensureWorkspaceDefaults fs).2 ++ [FsOp.readFile p]⟩ := by
  simp only [getFileContent, hz, hp, hg, Bool.false_eq_true, if_false]

/-- Writing to an accepted path whose parent directories are not blocked
by a file and which is not itself a directory overwrites it and returns
200. -/
theorem putFileContent_ok (fs : Fs) (raw content p : String)
    (hz : (jsTrim raw == "") = false)
    (hp : resolveWorkspacePath (jsTrim raw) = Except.ok p)
    (hmk : mkdirBlocked (ensureWorkspaceDefaults fs).1 (dirnameStr p) = false)
    (hdir : isDirIn (ensureWorkspaceDefaults fs).1 p = false) :
    putFileContent fs raw content =
      ⟨⟨200, true, none, none⟩,
       fsSet (ensureWorkspaceDefaults fs).1 p content,
       (ensureWorkspaceDefaults fs).2 ++
         [FsOp.mkdirp (dirnameStr p), FsOp.writeFile p, FsOp.statFile p]⟩ := by
  simp only [putFileContent, hz, hp, hmk, hdir, Bool.false_eq_true, if_false]

/-- Characterization of the confinement check: acceptance coincides with
the spec's predicate, the accepted value is the resolved path, and a
rejection carries exactly the `Invalid workspace path` message. -/
theorem resolveWorkspacePath_spec (rel : String) :
    (specAccepts rel = true ↔
        resolveWorkspacePath rel = Except.ok (resolvePosix WORKSPACE_DIR rel)) ∧
    (specAccepts rel = false ↔
        resolveWorkspacePath rel = Except.error "Invalid workspace path") := by
  have hne : resolveChars WORKSPACE_DIR.data rel.data ≠ WORKSPACE_DIR.data ++ ['/'] :=
    resolveChars_ne_rootSlash rel.data
  have hb2 : (resolveChars WORKSPACE_DIR.data rel.data == WORKSPACE_DIR.data ++ ['/']) = false :=
    beq_eq_false_iff_ne.mpr hne
  have hwp : resolveWorkspacePath rel =
      (if !(resolveChars WORKSPACE_DIR.data rel.data == WORKSPACE_DIR.data) &&
          !(List.isPrefixOf (WORKSPACE_DIR.data ++ ['/'])
              (resolveChars WORKSPACE_DIR.data rel.data)) then
        Except.error "Invalid workspace path"
      else Except.ok ⟨resolveChars WORKSPACE_DIR.data rel.data⟩) := rfl
  rw [hwp]
  cases ha : (resolveChars WORKSPACE_DIR.data rel.data == WORKSPACE_DIR.data) <;>
    cases hb : List.isPrefixOf (WORKSPACE_DIR.data ++ ['/'])
        (resolveChars WORKSPACE_DIR.data rel.data) <;>
    simp [specAccepts, resolvePosix, ha, hb, hb2]

/-! ### Claim theorems -/

/-- C1: every candidate path given to the file store's read or write
operation is resolved against the workspace root by absolute-path
resolution and accepted exactly when the resolved path equals the root or
extends the root with the separator (the strict-prefix reading agrees with
the code because a resolved path never ends in the separator); a rejected
path raises `Invalid workspace path`, and neither handler performs any
filesystem operation on the rejected candidate's resolved path. -/
theorem c1_path_confinement (rel : String) (fs : Fs) (content : String) :
    (specAccepts rel = true ↔
        resolveWorkspacePath rel = Except.ok (resolvePosix WORKSPACE_DIR rel)) ∧
    (specAccepts rel = false ↔
        resolveWorkspacePath rel = Except.error "Invalid workspace path") ∧
    (specAccepts (jsTrim rel) = false →
      (∀ op ∈ (getFileContent fs rel).trace,
          op.path ≠ resolvePosix WORKSPACE_DIR (jsTrim rel)) ∧
      (∀ op ∈ (putFileContent fs rel content).trace,
          op.path ≠ resolvePosix WORKSPACE_DIR (jsTrim rel))) := by
  refine ⟨(resolveWorkspacePath_spec rel).1, (resolveWorkspacePath_spec rel).2, ?_⟩
  intro h
  have hne : resolveChars WORKSPACE_DIR.data (jsTrim rel).data ≠
      WORKSPACE_DIR.data ++ ['/'] := resolveChars_ne_rootSlash (jsTrim rel).data
  have hb2 : (resolveChars WORKSPACE_DIR.data (jsTrim rel).data ==
      WORKSPACE_DIR.data ++ ['/']) = false := beq_eq_false_iff_ne.mpr hne
  have hcomp : (resolveChars WORKSPACE_DIR.data (jsTrim rel).data ==
        WORKSPACE_DIR.data) = false ∧
      List.isPrefixOf (WORKSPACE_DIR.data ++ ['/'])
        (resolveChars WORKSPACE_DIR.data (jsTrim rel).data) = false := by
    simp only [specAccepts, Bool.or_eq_false_iff, Bool.and_eq_false_iff] at h
    refine ⟨h.1, ?_⟩
    rcases h.2 with h2 | h2
    · exact h2
    · rw [hb2] at h2
      simp at h2
  have hroot : ∀ q : String, q.data = resolveChars WORKSPACE_DIR.data (jsTrim rel).data →
      (q = WORKSPACE_DIR ∨ q = WELCOME_PATH) → False := by
    intro q hq hor
    rcases hor with hq2 | hq2
    · subst hq2
      have : (resolveChars WORKSPACE_DIR.data (jsTrim rel).data ==
          WORKSPACE_DIR.data) = true := by
        rw [← hq]
        exact beq_self_eq_true _
      rw [hcomp.1] at this
      cases this
    · subst hq2
      have hw : List.isPrefixOf (WORKSPACE_DIR.data ++ ['/']) WELCOME_PATH.data = true := by
        decide
      rw [hq] at hw
      rw [hcomp.2] at hw
      cases hw
  have herr : resolveWorkspacePath (jsTrim rel) = Except.error "Invalid workspace path" :=
    ((resolveWorkspacePath_spec (jsTrim rel)).2).mp h
  have hrespath : (resolvePosix WORKSPACE_DIR (jsTrim rel)).data =
      resolveChars WORKSPACE_DIR.data (jsTrim rel).data := rfl
  constructor
  · intro op hop
    cases hz : (jsTrim rel == "") with
    | true =>
        rw [getFileContent_missing fs rel hz] at hop
        simp at hop
    | false =>
        rw [getFileContent_invalid fs rel hz herr] at hop
        intro hpath
        exact hroot op.path (by rw [hpath]; exact hrespath) (ensure_trace_paths fs op hop)
  · intro op hop
    cases hz : (jsTrim rel == "") with
    | true =>
        rw [putFileContent_missing fs rel content hz] at hop
        simp at hop
    | false =>
        rw [putFileContent_invalid fs rel content hz herr] at hop
        intro hpath
        exact hroot op.path (by rw [hpath]; exact hrespath) (ensure_trace_paths fs op hop)

/-- Witness for C1: the escaping path `../escape` is rejected with the
`Invalid workspace path` error and no traced operation touches its
resolution. -/
theorem c1_path_confinement_witness :
    specAccepts (jsTrim "../escape") = false ∧
    resolveWorkspacePath "../escape" = Except.error "Invalid workspace path" ∧
    (∀ op ∈ (getFileContent [] "../escape").trace,
        op.path ≠ resolvePosix WORKSPACE_DIR (jsTrim "../escape")) ∧
    (∀ op ∈ (putFileContent [] "../escape" "x").trace,
        op.path ≠ resolvePosix WORKSPACE_DIR (jsTrim "../escape")) :=
  ⟨by decide,
   ((c1_path_confinement "../escape" [] "x").2.1).mp (by decide),
   ((c1_path_confinement "../escape" [] "x").2.2 (by decide)).1,
   ((c1_path_confinement "../escape" [] "x").2.2 (by decide)).2⟩

/-- Looking up a freshly written binding returns the written content. -/
theorem fsGet_fsSet_self (fs : Fs) (p c : String) :
    fsGet (fsSet fs p c) p = some c := by
  simp [fsGet, fsSet, List.lookup]

/-- `ensureWorkspaceDefaults` never changes the content an existing path
maps to. -/
theorem fsGet_ensure_of_some (fs : Fs) (p c : String)
    (h : fsGet fs p = some c) :
    fsGet (ensureWorkspaceDefaults fs).1 p = some c := by
  unfold ensureWorkspaceDefaults
  cases hw : fsGet fs WELCOME_PATH with
  | none =>
      have hne : (p == WELCOME_PATH) = false := by
        refine beq_eq_false_iff_ne.mpr ?_
        intro he
        rw [he, hw] at h
        cases h
      simp only []
      show fsGet (fsSet fs WELCOME_PATH DEFAULT_WELCOME_MARKDOWN) p = some c
      simp only [fsGet, fsSet, List.lookup, hne]
      exact h
  | some w =>
      simpa [fsGet] using h

/-- C9 counterexample: the candidate `.` passes confinement validation (it
resolves to the workspace root, which the check accepts), yet the write
operation fails with 500 — `fs.writeFile` on the root directory throws
`EISDIR` — and nothing is stored, so write-then-read does not return the
written content.  This refutes the claim for arbitrary validated paths. -/
theorem c9_counterexample :
    resolveWorkspacePath (jsTrim ".") = Except.ok WORKSPACE_DIR ∧
    (putFileContent [] "." "payload").resp.status = 500 ∧
    (putFileContent [] "." "payload").resp.success = false ∧
    (getFileContent (putFileContent [] "." "payload").fs ".").resp.content
      ≠ some "payload" := by
  exact ⟨by decide, by decide, by decide, by decide⟩

/-- C9 (amended): for every path accepted by confinement validation whose
resolution is not itself a directory and has no existing file blocking a
parent directory — so the handler's `mkdir` and `writeFile` both succeed —
writing and then reading that path returns exactly the written content;
both operations succeed with status 200. -/
theorem c9_write_then_read (fs : Fs) (raw content p : String)
    (hz : (jsTrim raw == "") = false)
    (hp : resolveWorkspacePath (jsTrim raw) = Except.ok p)
    (hmk : mkdirBlocked (ensureWorkspaceDefaults fs).1 (dirnameStr p) = false)
    (hdir : isDirIn (ensureWorkspaceDefaults fs).1 p = false) :
    (putFileContent fs raw content).resp.status = 200 ∧
    (getFileContent (putFileContent fs raw content).fs raw).resp.status = 200 ∧
    (getFileContent (putFileContent fs raw content).fs raw).resp.content
      = some content := by
  rw [putFileContent_ok fs raw content p hz hp hmk hdir]
  have hlookup :
      fsGet (ensureWorkspaceDefaults
        (fsSet (ensureWorkspaceDefaults fs).1 p content)).1 p = some content :=
    fsGet_ensure_of_some _ p content (fsGet_fsSet_self _ p content)
  rw [getFileContent_found _ raw p content hz hp hlookup]
  exact ⟨rfl, rfl, rfl⟩

/-- Witness for C9 (amended): writing then reading `roundtrip.md` returns
the payload byte for byte. -/
theorem c9_write_then_read_witness :
    (jsTrim "roundtrip.md" == "") = false ∧
    isDirIn (ensureWorkspaceDefaults []).1 "/app/my-computer/roundtrip.md" = false ∧
    (putFileContent [] "roundtrip.md" "payload bytes").resp.status = 200 ∧
    (getFileContent (putFileContent [] "roundtrip.md" "payload bytes").fs
        "roundtrip.md").resp.content = some "payload bytes" :=
  ⟨by decide, by decide,
   (c9_write_then_read [] "roundtrip.md" "payload bytes"
      "/app/my-computer/roundtrip.md" (by decide) (by decide) (by decide)
      (by decide)).1,
   (c9_write_then_read [] "roundtrip.md" "payload bytes"
      "/app/my-computer/roundtrip.md" (by decide) (by decide) (by decide)
      (by decide)).2.2⟩

/-! ### Classifier lemmas -/

/-- The nested conditionals of both simulator copies implement exactly the
ordered first-match policy over the keyword-group table. -/
theorem classifier_first_match (cmd : String) :
    buildExperienceProfile cmd = experienceForGroup cmd (firstMatchingGroup cmd) ∧
    analyzeTodolist cmd = todoForGroup cmd (firstMatchingGroup cmd) := by
  have hA : (includes (jsToLower cmd) "ascii" || includes (jsToLower cmd) "art")
      = matchesGroup cmd asciiKeywords := by
    simp [matchesGroup, asciiKeywords]
  have hS : (includes (jsToLower cmd) "shop" || includes (jsToLower cmd) "groceries" ||
      includes (jsToLower cmd) "grocery" || includes (jsToLower cmd) "buy" ||
      includes (jsToLower cmd) "carrots" || includes (jsToLower cmd) "apples")
      = matchesGroup cmd shoppingKeywords := by
    simp [matchesGroup, shoppingKeywords, Bool.or_assoc]
  have hB : (includes (jsToLower cmd) "blog" || includes (jsToLower cmd) "write" ||
      includes (jsToLower cmd) "article") = matchesGroup cmd blogKeywords := by
    simp [matchesGroup, blogKeywords, Bool.or_assoc]
  have hC : (includes (jsToLower cmd) "code" || includes (jsToLower cmd) "app" ||
      includes (jsToLower cmd) "build" || includes (jsToLower cmd) "implement" ||
      includes (jsToLower cmd) "develop") = matchesGroup cmd codeKeywords := by
    simp [matchesGroup, codeKeywords, Bool.or_assoc]
  have hT : (includes (jsToLower cmd) "travel" || includes (jsToLower cmd) "vacation" ||
      includes (jsToLower cmd) "trip" || includes (jsToLower cmd) "holiday")
      = matchesGroup cmd travelKeywords := by
    simp [matchesGroup, travelKeywords, Bool.or_assoc]
  have hW : (includes (jsToLower cmd) "twitter" || includes (jsToLower cmd) "tweet" ||
      includes (jsToLower cmd) "post" || includes (jsToLower cmd) "social media")
      = matchesGroup cmd twitterKeywords := by
    simp [matchesGroup, twitterKeywords, Bool.or_assoc]
  constructor <;>
  · simp only [buildExperienceProfile, analyzeTodolist, hA, hS, hB, hC, hT, hW,
      firstMatchingGroup, firstMatchingGroupAux, orderedGroups]
    by_cases h0 : matchesGroup cmd asciiKeywords <;> simp only [h0] <;> try rfl
    by_cases h1 : matchesGroup cmd shoppingKeywords <;> simp only [h1] <;> try rfl
    by_cases h2 : matchesGroup cmd blogKeywords <;> simp only [h2] <;> try rfl
    by_cases h3 : matchesGroup cmd codeKeywords <;> simp only [h3] <;> try rfl
    by_cases h4 : matchesGroup cmd travelKeywords <;> simp only [h4] <;> try rfl
    by_cases h5 : matchesGroup cmd twitterKeywords <;> simp only [h5] <;> try rfl

/-- C3 (amended): both classifier copies test the keyword groups in the
fixed order ascii-art, shopping, blog, code, travel, twitter with
case-insensitive substring matching and the first matching group wins; in
particular a command containing a shopping keyword and a blog keyword and
no ascii-art keyword resolves to the shopping profile. -/
theorem c3_first_match_order (cmd : String) :
    buildExperienceProfile cmd = experienceForGroup cmd (firstMatchingGroup cmd) ∧
    analyzeTodolist cmd = todoForGroup cmd (firstMatchingGroup cmd) ∧
    (matchesGroup cmd shoppingKeywords = true →
     matchesGroup cmd blogKeywords = true →
     matchesGroup cmd asciiKeywords = false →
     buildExperienceProfile cmd = shoppingCompanionProfile cmd ∧
     analyzeTodolist cmd = shoppingListProfile cmd) := by
  obtain ⟨h1, h2⟩ := classifier_first_match cmd
  refine ⟨h1, h2, ?_⟩
  intro hs _hb ha
  rw [h1, h2]
  have hfm : firstMatchingGroup cmd = some 1 := by
    simp [firstMatchingGroup, firstMatchingGroupAux, orderedGroups, ha, hs]
  rw [hfm]
  exact ⟨rfl, rfl⟩

/-- C3 counterexample: `blog art shop` contains the shopping keyword
`shop` and the blog keyword `blog`, yet resolves to the ascii-art profile,
because the ascii-art group is tested first and `art` matches. -/
theorem c3_counterexample :
    includes (jsToLower "blog art shop") "shop" = true ∧
    includes (jsToLower "blog art shop") "blog" = true ∧
    buildExperienceProfile "blog art shop" = asciiShowcaseProfile ∧
    buildExperienceProfile "blog art shop" ≠ shoppingCompanionProfile "blog art shop" ∧
    analyzeTodolist "blog art shop" ≠ shoppingListProfile "blog art shop" := by
  exact ⟨by decide, by decide, by decide, by decide, by decide⟩

/-- Witness for C3 (amended) at `shop blog plan`, which has shopping and
blog keywords and no ascii-art keyword. -/
theorem c3_first_match_order_witness :
    matchesGroup "shop blog plan" shoppingKeywords = true ∧
    matchesGroup "shop blog plan" blogKeywords = true ∧
    matchesGroup "shop blog plan" asciiKeywords = false ∧
    buildExperienceProfile "shop blog plan" = shoppingCompanionProfile "shop blog plan" :=
  ⟨by decide, by decide, by decide,
   ((c3_first_match_order "shop blog plan").2.2 (by decide) (by decide) (by decide)).1⟩

/-- Splitting never yields an empty list of segments. -/
theorem splitOnCharGo_ne_nil (sep : Char) :
    ∀ (l cur : List Char), splitOnCharGo sep cur l ≠ []
  | [], cur => by simp [splitOnCharGo]
  | c :: rest, cur => by
      simp only [splitOnCharGo]
      by_cases hc : c = sep
      · rw [if_pos hc]
        exact List.cons_ne_nil _ _
      · rw [if_neg hc]
        exact splitOnCharGo_ne_nil sep rest (c :: cur)

/-- `extractItems` never returns an empty list when the defaults are
nonempty: each of its three tiers produces at least one item. -/
theorem extractItems_ne_nil (cmd : String) (defaults : List String)
    (hd : defaults ≠ []) : extractItems cmd defaults ≠ [] := by
  unfold extractItems
  cases hq : (quotedMatches cmd).isEmpty
  · simp only [hq, Bool.false_eq_true, if_false]
    rw [Ne, List.map_eq_nil_iff]
    exact List.isEmpty_eq_false.mp hq
  · simp only [hq, if_true]
    cases hc : colonCapture cmd with
    | none =>
        rw [Ne, List.map_eq_nil_iff]
        exact hd
    | some cap =>
        cases hcm : cap.contains ','
        · simp only [hcm, Bool.false_eq_true, if_false]
          rw [Ne, List.map_eq_nil_iff]
          exact hd
        · simp only [hcm, if_true]
          rw [Ne, List.map_eq_nil_iff]
          exact splitOnCharGo_ne_nil ',' cap []

/-- C6: for every command, each classifier copy returns a profile in which
exactly one of the two content carriers is active: the items list is
nonempty exactly when no custom content block is present (the ascii branch
carries custom content and empty items; every other branch carries
nonempty items and no custom content). -/
theorem c6_items_custom_invariant (cmd : String) :
    ((buildExperienceProfile cmd).items ≠ [] ↔
      (buildExperienceProfile cmd).customContent = none) ∧
    ((analyzeTodolist cmd).items ≠ [] ↔
      (analyzeTodolist cmd).customContent = none) := by
  obtain ⟨h1, h2⟩ := classifier_first_match cmd
  rw [h1, h2]
  have hx : extractItems cmd shoppingDefaults ≠ [] :=
    extractItems_ne_nil cmd shoppingDefaults (by decide)
  cases firstMatchingGroup cmd with
  | none =>
      constructor <;> simp [experienceForGroup, todoForGroup,
        projectBriefProfile, todoDefaultProfile, genericItems]
  | some n =>
      match n with
      | 0 =>
          constructor <;> simp [experienceForGroup, todoForGroup,
            asciiShowcaseProfile]
      | 1 =>
          constructor <;>
            simp [experienceForGroup, todoForGroup, shoppingCompanionProfile,
              shoppingListProfile, hx]
      | 2 =>
          constructor <;> simp [experienceForGroup, todoForGroup,
            blogToolkitProfile, blogTodoProfile, blogItems]
      | 3 =>
          constructor <;> simp [experienceForGroup, todoForGroup,
            devSprintProfile, devTodoProfile, devItems]
      | 4 =>
          constructor <;> simp [experienceForGroup, todoForGroup,
            travelPlannerProfile, travelTodoProfile, travelItems]
      | 5 =>
          constructor <;> simp [experienceForGroup, todoForGroup,
            socialLaunchProfile, twitterTodoProfile, socialItems]
      | (m + 6) =>
          constructor <;> simp [experienceForGroup, todoForGroup,
            projectBriefProfile, todoDefaultProfile, genericItems]

/-- C5 counterexample: a 60-character keyword-free command produces a
default-branch title of 70 characters (the fixed `Project Brief` preamble
plus the 53-character truncated echo), so the title is neither the
truncated echo itself nor at most 53 characters long. -/
theorem c5_counterexample :
    firstMatchingGroup "xxxxxxxxxxxxxxxxxxxxxxxxxxxxxxxxxxxxxxxxxxxxxxxxxxxxxxxxxxxx" = none ∧
    (buildExperienceProfile "xxxxxxxxxxxxxxxxxxxxxxxxxxxxxxxxxxxxxxxxxxxxxxxxxxxxxxxxxxxx").title.length = 70 ∧
    ¬ ((buildExperienceProfile "xxxxxxxxxxxxxxxxxxxxxxxxxxxxxxxxxxxxxxxxxxxxxxxxxxxxxxxxxxxx").title.length ≤ 53) ∧
    (buildExperienceProfile "xxxxxxxxxxxxxxxxxxxxxxxxxxxxxxxxxxxxxxxxxxxxxxxxxxxxxxxxxxxx").title ≠
      truncatedEcho "xxxxxxxxxxxxxxxxxxxxxxxxxxxxxxxxxxxxxxxxxxxxxxxxxxxxxxxxxxxx" := by
  exact ⟨by decide, by decide, by decide, by decide⟩

/-- C5 (amended): for every command matching no keyword group, both
classifier copies return the generic default profile whose title embeds
the truncated echo of the command after a fixed preamble; the echo part is
the command truncated to 50 characters with an ellipsis marker appended
exactly when the command is longer than 50 characters, hence at most 53
characters, and the items are the fixed 7-step planning checklist. -/
theorem c5_default_profile (cmd : String) (h : firstMatchingGroup cmd = none) :
    buildExperienceProfile cmd = projectBriefProfile cmd ∧
    analyzeTodolist cmd = todoDefaultProfile cmd ∧
    (projectBriefProfile cmd).title = "📋 Project Brief: " ++ truncatedEcho cmd ∧
    (todoDefaultProfile cmd).title = "📋 Todo List: " ++ truncatedEcho cmd ∧
    (projectBriefProfile cmd).items = genericItems ∧
    genericItems.length = 7 ∧
    (truncatedEcho cmd).length ≤ 53 ∧
    (cmd.length ≤ 50 → truncatedEcho cmd = cmd) ∧
    (50 < cmd.length →
      truncatedEcho cmd = jsSubstringTo cmd 50 ++ "..." ∧
      (truncatedEcho cmd).length = 53) := by
  obtain ⟨h1, h2⟩ := classifier_first_match cmd
  rw [h1, h2, h]
  refine ⟨rfl, rfl, rfl, rfl, rfl, rfl, ?_, ?_, ?_⟩
  · rw [truncatedEcho, String.length_append]
    have ht : (jsSubstringTo cmd 50).length = min 50 cmd.length := by
      show (cmd.data.take 50).length = min 50 cmd.data.length
      exact List.length_take ..
    rw [ht]
    by_cases hlen : cmd.length > 50
    · rw [if_pos hlen]
      have : ("..." : String).length = 3 := by decide
      omega
    · rw [if_neg hlen]
      have : ("" : String).length = 0 := by decide
      omega
  · intro hle
    rw [truncatedEcho, if_neg (by omega)]
    rw [String.append_empty]
    show (⟨cmd.data.take 50⟩ : String) = cmd
    rw [List.take_of_length_le hle]
  · intro hgt
    rw [truncatedEcho, if_pos hgt]
    refine ⟨rfl, ?_⟩
    rw [String.length_append]
    have ht : (jsSubstringTo cmd 50).length = min 50 cmd.length := by
      show (cmd.data.take 50).length = min 50 cmd.data.length
      exact List.length_take ..
    have h3 : ("..." : String).length = 3 := by decide
    omega

/-- Witness for C5 (amended) at the keyword-free command `zzz`. -/
theorem c5_default_profile_witness :
    firstMatchingGroup "zzz" = none ∧
    buildExperienceProfile "zzz" = projectBriefProfile "zzz" ∧
    (truncatedEcho "zzz").length ≤ 53 :=
  ⟨by decide,
   (c5_default_profile "zzz" (by decide)).1,
   (c5_default_profile "zzz" (by decide)).2.2.2.2.2.2.1⟩

/-- C10: in the shopping branch, when the command has no double-quoted
substring and the colon capture contains no comma, the captured text is
ignored entirely and the profile's items are the default grocery list. -/
theorem c10_colon_without_comma (cmd : String)
    (hs : matchesGroup cmd shoppingKeywords = true)
    (ha : matchesGroup cmd asciiKeywords = false)
    (hq : quotedMatches cmd = [])
    (cap : List Char) (hc : colonCapture cmd = some cap)
    (hcomma : cap.contains ',' = false) :
    buildExperienceProfile cmd = shoppingCompanionProfile cmd ∧
    extractItems cmd shoppingDefaults =
      shoppingDefaults.map (fun item => "🛒 " ++ item) ∧
    (buildExperienceProfile cmd).items =
      shoppingDefaults.map (fun item => "🛒 " ++ item) := by
  have hext : extractItems cmd shoppingDefaults =
      shoppingDefaults.map (fun item => "🛒 " ++ item) := by
    unfold extractItems
    rw [hq, hc]
    simp only [List.isEmpty_nil, if_true, hcomma, Bool.false_eq_true, if_false]
  obtain ⟨h1, _⟩ := classifier_first_match cmd
  have hfm : firstMatchingGroup cmd = some 1 := by
    simp [firstMatchingGroup, firstMatchingGroupAux, orderedGroups, ha, hs]
  rw [h1, hfm]
  exact ⟨rfl, hext, by simp [experienceForGroup, shoppingCompanionProfile, hext]⟩

/-- Witness for C10 at `make a shopping list: milk`: the colon capture is
`milk`, has no comma, and the items fall back to the default grocery
list. -/
theorem c10_colon_without_comma_witness :
    colonCapture "make a shopping list: milk" = some "milk".data ∧
    (buildExperienceProfile "make a shopping list: milk").items =
      shoppingDefaults.map (fun item => "🛒 " ++ item) :=
  ⟨by decide,
   (c10_colon_without_comma "make a shopping list: milk" (by decide) (by decide)
      (by decide) "milk".data (by decide) (by decide)).2.2⟩

/-- Every match collected by the quoted-string scanner is a nonempty,
quote-free body wrapped in its two quotes. -/
theorem quotedGo_shape :
    ∀ (l : List Char) (st : Option (List Char)),
      (∀ acc, st = some acc → '"' ∉ acc) →
      ∀ q ∈ quotedGo st l, ∃ b, q = '"' :: b ++ ['"'] ∧ b ≠ [] ∧ '"' ∉ b
  | [], st, _, q, hq => by
      cases st <;> simp [quotedGo] at hq
  | c :: rest, none, _, q, hq => by
      simp only [quotedGo] at hq
      by_cases hc : c = '"'
      · rw [if_pos hc] at hq
        exact quotedGo_shape rest (some [])
          (by intro a h; injection h with h2; subst h2; simp) q hq
      · rw [if_neg hc] at hq
        exact quotedGo_shape rest none (by intro a h; cases h) q hq
  | c :: rest, some acc, hst, q, hq => by
      have hacc : '"' ∉ acc := hst acc rfl
      simp only [quotedGo] at hq
      by_cases hc : c = '"'
      · rw [if_pos hc] at hq
        by_cases hae : acc = []
        · rw [if_pos hae] at hq
          exact quotedGo_shape rest (some [])
            (by intro a h; injection h with h2; subst h2; simp) q hq
        · rw [if_neg hae] at hq
          rcases List.mem_cons.mp hq with h | h
          · refine ⟨acc.reverse, h, ?_, ?_⟩
            · simpa using hae
            · intro hm
              exact hacc (List.mem_reverse.mp hm)
          · exact quotedGo_shape rest none (by intro a h2; cases h2) q h
      · rw [if_neg hc] at hq
        refine quotedGo_shape rest (some (c :: acc)) ?_ q hq
        intro a h2
        injection h2 with h3
        subst h3
        intro hm
        rcases List.mem_cons.mp hm with h4 | h4
        · exact hc h4.symm
        · exact hacc h4

/-- `replaceChar` distributes over concatenation. -/
theorem replaceChar_append (c : Char) (rep : List Char) :
    ∀ l1 l2, replaceChar c rep (l1 ++ l2) =
      replaceChar c rep l1 ++ replaceChar c rep l2
  | [], l2 => by simp [replaceChar]
  | x :: t, l2 => by
      show (if x = c then rep else [x]) ++ replaceChar c rep (t ++ l2) =
        ((if x = c then rep else [x]) ++ replaceChar c rep t) ++ replaceChar c rep l2
      rw [replaceChar_append c rep t l2, List.append_assoc]

/-- `replaceChar` fixes a list that does not contain the pattern. -/
theorem replaceChar_of_not_mem (c : Char) (rep : List Char) :
    ∀ l, c ∉ l → replaceChar c rep l = l
  | [], _ => rfl
  | x :: t, h => by
      have hx : x ≠ c := fun he => h (List.mem_cons.mpr (Or.inl he.symm))
      simp only [replaceChar, if_neg hx]
      rw [replaceChar_of_not_mem c rep t (fun hm => h (List.mem_cons_of_mem _ hm))]
      simp

/-- Deleting all quotes from a quoted match recovers its body. -/
theorem stripQuotes_wrap (b : List Char) (hb : '"' ∉ b) :
    replaceChar '"' [] ('"' :: b ++ ['"']) = b := by
  have h1 : ('"' :: b ++ ['"']) = ['"'] ++ b ++ ['"'] := rfl
  rw [h1, replaceChar_append, replaceChar_append, replaceChar_of_not_mem _ _ b hb]
  simp [replaceChar]

/-- C4: item extraction in the shopping branch follows the ordered
three-tier preference.  With at least one double-quoted substring the
result is exactly one item per quoted match, in order of appearance, with
the quote characters stripped; otherwise a colon capture containing a
comma is split on commas with each piece trimmed; otherwise the fixed
defaults are returned. -/
theorem c4_extract_tiers (cmd : String) (defaults : List String) :
    (quotedMatches cmd ≠ [] →
      ∃ bodies : List (List Char),
        quotedMatches cmd = bodies.map (fun b => '"' :: b ++ ['"']) ∧
        (∀ b ∈ bodies, b ≠ [] ∧ '"' ∉ b) ∧
        extractItems cmd defaults =
          bodies.map (fun b => "🛒 " ++ (⟨b⟩ : String)) ∧
        (extractItems cmd defaults).length = (quotedMatches cmd).length) ∧
    (quotedMatches cmd = [] →
      (∀ cap, colonCapture cmd = some cap → cap.contains ',' = true →
        extractItems cmd defaults =
          (splitOnChar ',' cap).map
            (fun item => "🛒 " ++ (⟨jsTrimL item⟩ : String))) ∧
      (∀ cap, colonCapture cmd = some cap → cap.contains ',' = false →
        extractItems cmd defaults = defaults.map (fun item => "🛒 " ++ item)) ∧
      (colonCapture cmd = none →
        extractItems cmd defaults = defaults.map (fun item => "🛒 " ++ item))) := by
  constructor
  · intro hne
    have hshape : ∀ q ∈ quotedMatches cmd,
        ∃ b, q = '"' :: b ++ ['"'] ∧ b ≠ [] ∧ '"' ∉ b :=
      fun q hq => quotedGo_shape cmd.data none (by intro a h; cases h) q hq
    have hie : (quotedMatches cmd).isEmpty = false := List.isEmpty_eq_false.mpr hne
    have hext : extractItems cmd defaults =
        (quotedMatches cmd).map
          (fun q => "🛒 " ++ (⟨replaceChar '"' [] q⟩ : String)) := by
      simp only [extractItems, hie, Bool.false_eq_true, if_false]
    refine ⟨(quotedMatches cmd).map (fun q => (q.drop 1).dropLast), ?_, ?_, ?_, ?_⟩
    · rw [List.map_map]
      conv_lhs => rw [← List.map_id (quotedMatches cmd)]
      apply List.map_congr_left
      intro q hq
      obtain ⟨b, rfl, _, _⟩ := hshape q hq
      simp [List.dropLast_concat]
    · intro b hb
      rcases List.mem_map.mp hb with ⟨q, hq, rfl⟩
      obtain ⟨b', rfl, hb1, hb2⟩ := hshape q hq
      simpa [List.dropLast_concat] using ⟨hb1, hb2⟩
    · rw [hext, List.map_map]
      apply List.map_congr_left
      intro q hq
      obtain ⟨b, rfl, _, hb2⟩ := hshape q hq
      simp only [Function.comp]
      rw [stripQuotes_wrap b hb2]
      simp [List.dropLast_concat]
    · rw [hext, List.length_map]
  · intro hq
    have hie : (quotedMatches cmd).isEmpty = true := by rw [hq]; rfl
    refine ⟨?_, ?_, ?_⟩
    · intro cap hc hcm
      simp only [extractItems, hie, if_true, hc, hcm]
    · intro cap hc hcm
      simp only [extractItems, hie, if_true, hc, hcm, Bool.false_eq_true, if_false]
    · intro hc
      simp only [extractItems, hie, if_true, hc]

/-- Witness for C4: the command `buy "milk" and "rye bread"` yields
exactly one item per quoted substring, in order, quotes stripped. -/
theorem c4_extract_tiers_witness :
    quotedMatches "buy \"milk\" and \"rye bread\"" ≠ [] ∧
    extractItems "buy \"milk\" and \"rye bread\"" shoppingDefaults
      = ["🛒 milk", "🛒 rye bread"] ∧
    (∃ bodies : List (List Char),
      quotedMatches "buy \"milk\" and \"rye bread\""
        = bodies.map (fun b => '"' :: b ++ ['"']) ∧
      (∀ b ∈ bodies, b ≠ [] ∧ '"' ∉ b) ∧
      extractItems "buy \"milk\" and \"rye bread\"" shoppingDefaults
        = bodies.map (fun b => "🛒 " ++ (⟨b⟩ : String)) ∧
      (extractItems "buy \"milk\" and \"rye bread\"" shoppingDefaults).length
        = (quotedMatches "buy \"milk\" and \"rye bread\"").length) :=
  ⟨by decide, by decide,
   (c4_extract_tiers "buy \"milk\" and \"rye bread\"" shoppingDefaults).1 (by decide)⟩

/-- C7: the inline formatter first escapes `&`, `<`, `>`, `"`, `'` in that
order and then applies the bold, italic, code and link replacements as
independent passes in the source's fixed order with bold before italic;
consequently `**bold**` renders as `<strong>bold</strong>` with no `<em>`
tag, while running the italic pass before the bold pass on the same input
would not produce that output. -/
theorem c7_inline_formatting (s : String) :
    renderInlineMarkdown s =
      ⟨subLink (subSingle btick "<code>".data "</code>".data
        (subSingle '_' "<em>".data "</em>".data
          (subSingle '*' "<em>".data "</em>".data
            (subDouble '_' "<strong>".data "</strong>".data
              (subDouble '*' "<strong>".data "</strong>".data
                (escapeHtmlL s.data))))))⟩ ∧
    escapeHtmlL s.data =
      replaceChar '\'' "&#39;".data (replaceChar '"' "&quot;".data
        (replaceChar '>' "&gt;".data (replaceChar '<' "&lt;".data
          (replaceChar '&' "&amp;".data s.data)))) ∧
    renderInlineMarkdown "**bold**" = "<strong>bold</strong>" ∧
    listIncludes (renderInlineMarkdown "**bold**").data "<em>".data = false ∧
    subDouble '*' "<strong>".data "</strong>".data
        (subSingle '*' "<em>".data "</em>".data "**bold**".data) ≠
      "<strong>bold</strong>".data :=
  ⟨rfl, rfl, by decide, by decide, by decide⟩

/-- C8: rendering `# Title\n\n- one\n- two\n` produces exactly one `h1`
with text `Title` followed by exactly one `ul` containing exactly two `li`
elements with contents `one` and `two` in source order. -/
theorem c8_render_scenario :
    renderMarkdown "# Title\n\n- one\n- two\n" =
      "<h1>Title</h1>\n\n<ul>\n<li>one</li>\n<li>two</li>\n</ul>\n" ∧
    countSub (renderMarkdown "# Title\n\n- one\n- two\n").data "<h1>".data = 1 ∧
    countSub (renderMarkdown "# Title\n\n- one\n- two\n").data "</h1>".data = 1 ∧
    countSub (renderMarkdown "# Title\n\n- one\n- two\n").data "<ul>".data = 1 ∧
    countSub (renderMarkdown "# Title\n\n- one\n- two\n").data "</ul>".data = 1 ∧
    countSub (renderMarkdown "# Title\n\n- one\n- two\n").data "<li>".data = 2 ∧
    countSub (renderMarkdown "# Title\n\n- one\n- two\n").data
      "<li>one</li>".data = 1 ∧
    countSub (renderMarkdown "# Title\n\n- one\n- two\n").data
      "<li>two</li>".data = 1 :=
  ⟨by decide, by decide, by decide, by decide, by decide, by decide,
   by decide, by decide⟩
